import Mathlib

/-!
Verification of the two core modules of the A2A_MCP repository:

* `src/tools/psp_merkle_root.rs` — hash-tag codec and domain-separated
  Merkle-root construction (`sha_tag_to_bytes`, `bytes_to_sha_tag`,
  `psp_merkle_root_from_tick_hashes`);
* `src/packages/sdk/rust/ingestion.rs` — plug-bundle cross-validator
  (`ingest_plug`).

Rust strings are modelled at the byte level (`List Nat`, one entry per
UTF-8 byte) so that byte-length checks, byte-range slicing with its
char-boundary panics, and `u8::from_str_radix` digit handling are all
captured faithfully.  A computation outcome is `RResult α`: `ok`, `err`
(with the error message's bytes) or `panic`.  SHA-256 is implemented in
full (FIPS 180-4) so that roots evaluate on concrete inputs.
-/

set_option maxRecDepth 100000

/-- Byte list of an ASCII string literal (for ASCII, code points coincide
with UTF-8 bytes). -/
def asciiBytes (s : String) : List Nat :=
  s.toList.map Char.toNat

/-- Outcome of running a fallible Rust function: success, an error value
carrying the message bytes, or a panic. -/
inductive RResult (α : Type) where
  | ok : α → RResult α
  | err : List Nat → RResult α
  | panic : RResult α
deriving DecidableEq, Repr

/-- True on success. -/
def RResult.isOk {α : Type} : RResult α → Bool
  | .ok _ => true
  | _ => false

/-- A UTF-8 continuation byte (0x80..=0xBF). -/
def isContByte (b : Nat) : Bool :=
  decide (128 ≤ b) && decide (b < 192)

/-- Rust `str::is_char_boundary`: index 0 and the length are boundaries;
an interior index is a boundary iff its byte is not a continuation byte. -/
def isCharBoundary (s : List Nat) (i : Nat) : Bool :=
  decide (i = 0) || decide (i = s.length) ||
    (decide (i < s.length) && ! isContByte (s.getD i 0))

/-- Rust byte-range slicing `&s[a..b]` on a `str`: yields the bytes when
`a ≤ b ≤ len` and both ends are char boundaries; otherwise the slice
operation panics (`none`). -/
def strSlice (s : List Nat) (a b : Nat) : Option (List Nat) :=
  if decide (a ≤ b) && isCharBoundary s a && isCharBoundary s b then
    some ((s.drop a).take (b - a))
  else
    none

/-- Rust `char::to_digit 16` applied to a byte read as a char: `0-9`, `a-f`
and `A-F` are hex digits; anything else (including UTF-8 continuation
bytes) is rejected. -/
def to_digit16 (b : Nat) : Option Nat :=
  if 48 ≤ b ∧ b ≤ 57 then some (b - 48)
  else if 97 ≤ b ∧ b ≤ 102 then some (b - 87)
  else if 65 ≤ b ∧ b ≤ 70 then some (b - 55)
  else none

/-- Digit-accumulation loop of `from_str_radix` with the `u8` overflow
check (`checked_mul`/`checked_add` against 255). -/
def parseDigitsU8 : List Nat → Nat → Option Nat
  | [], acc => some acc
  | d :: rest, acc =>
    match to_digit16 d with
    | none => none
    | some v =>
      if acc * 16 + v ≤ 255 then parseDigitsU8 rest (acc * 16 + v)
      else none

/-- Rust `u8::from_str_radix(s, 16)` on the bytes of `s`: empty input
fails; a leading `+` (byte 43) is consumed (a `-` is not a digit, so it
fails for the unsigned type); at least one digit must remain. -/
def u8_from_str_radix16 (s : List Nat) : Option Nat :=
  match s with
  | [] => none
  | b :: rest =>
    match (if b = 43 then rest else b :: rest) with
    | [] => none
    | d :: ds => parseDigitsU8 (d :: ds) 0

/-- Bytes of the constant `SHA_TAG_PREFIX` (`"sha256:"`, 7 bytes). -/
def shaTagHead : List Nat :=
  asciiBytes "sha256:"

/-- Error message `format!("bad sha tag: {}", tag)`. -/
def err_bad_tag (tag : List Nat) : List Nat :=
  asciiBytes "bad sha tag: " ++ tag

/-- Error message `format!("bad hex in sha tag: {}", tag)`. -/
def err_bad_hex (tag : List Nat) : List Nat :=
  asciiBytes "bad hex in sha tag: " ++ tag

/-- The `for i in 0..32` loop of `sha_tag_to_bytes`, with `n` pairs left
to process starting at pair index `i`: slice `&hex[i*2..i*2+2]` (a byte
slice, which panics off a char boundary), parse it as a hex `u8`,
store the byte.  The collected bytes are returned in order. -/
def decode_pairs (hex tag : List Nat) : Nat → Nat → RResult (List Nat)
  | _, 0 => .ok []
  | i, n + 1 =>
    match strSlice hex (i * 2) (i * 2 + 2) with
    | none => .panic
    | some sl =>
      match u8_from_str_radix16 sl with
      | none => .err (err_bad_hex tag)
      | some b =>
        match decode_pairs hex tag (i + 1) n with
        | .ok rest => .ok (b :: rest)
        | .err e => .err e
        | .panic => .panic

/-- Rust `sha_tag_to_bytes`: require the `"sha256:"` byte head and total
byte length 71, slice off the hex region (`&tag[7..]`), then decode the
32 two-character groups. -/
def sha_tag_to_bytes (tag : List Nat) : RResult (List Nat) :=
  if ! shaTagHead.isPrefixOf tag || decide (tag.length ≠ shaTagHead.length + 64) then
    .err (err_bad_tag tag)
  else
    match strSlice tag shaTagHead.length tag.length with
    | none => .panic
    | some hex => decode_pairs hex tag 0 32

/-- Lowercase hex character (as a byte) of a value below 16. -/
def hexCharOf (v : Nat) : Nat :=
  if v < 10 then 48 + v else 87 + v

/-- Rendering `format!("{:02x}", b)` of a byte: two lowercase hex characters. -/
def byteToHex (b : Nat) : List Nat :=
  [hexCharOf (b / 16), hexCharOf (b % 16)]

/-- Concatenation of the per-byte hex renderings. -/
def hexOfBytes : List Nat → List Nat
  | [] => []
  | b :: rest => byteToHex b ++ hexOfBytes rest

/-- Rust `bytes_to_sha_tag`: `"sha256:"` followed by the lowercase hex
rendering of each byte. -/
def bytes_to_sha_tag (bytes : List Nat) : List Nat :=
  shaTagHead ++ hexOfBytes bytes

example : asciiBytes "sha256:" = [115, 104, 97, 50, 53, 54, 58] := by decide
example : sha_tag_to_bytes (asciiBytes "sha256:" ++ List.replicate 64 48) = .ok (List.replicate 32 0) := by decide
example : (sha_tag_to_bytes (asciiBytes "sha256:" ++ List.replicate 64 65)).isOk = true := by decide
example : sha_tag_to_bytes (asciiBytes "sha256:" ++ List.replicate 64 122) = .err (err_bad_hex (asciiBytes "sha256:" ++ List.replicate 64 122)) := by decide
example : sha_tag_to_bytes (asciiBytes "sha256:abc") = .err (err_bad_tag (asciiBytes "sha256:abc")) := by decide
example : sha_tag_to_bytes (asciiBytes "sha256:0" ++ [195, 169] ++ List.replicate 61 48) = .panic := by decide
example : bytes_to_sha_tag (List.replicate 32 170) = asciiBytes ("sha256:" ++ String.mk (List.replicate 64 'a')) := by decide

/-- The `u32` modulus, 2^32. -/
def M32 : Nat := 4294967296

/-- Rotate a 32-bit word right by `n` bit positions (result reduced mod 2^32). -/
def rotr32 (n x : Nat) : Nat :=
  ((x <<< (32 - n)) ||| (x >>> n)) % M32

/-- SHA-256 big sigma 0. -/
def bigSigma0 (x : Nat) : Nat := rotr32 2 x ^^^ rotr32 13 x ^^^ rotr32 22 x

/-- SHA-256 big sigma 1. -/
def bigSigma1 (x : Nat) : Nat := rotr32 6 x ^^^ rotr32 11 x ^^^ rotr32 25 x

/-- SHA-256 small sigma 0. -/
def smallSigma0 (x : Nat) : Nat := rotr32 7 x ^^^ rotr32 18 x ^^^ (x >>> 3)

/-- SHA-256 small sigma 1. -/
def smallSigma1 (x : Nat) : Nat := rotr32 17 x ^^^ rotr32 19 x ^^^ (x >>> 10)

/-- SHA-256 choice function. -/
def chF (x y z : Nat) : Nat := (x &&& y) ^^^ ((x ^^^ (M32 - 1)) &&& z)

/-- SHA-256 majority function. -/
def majF (x y z : Nat) : Nat := (x &&& y) ^^^ (x &&& z) ^^^ (y &&& z)

/-- SHA-256 round constants. -/
def K256 : List Nat :=
  [1116352408, 1899447441, 3049323471, 3921009573,
   961987163, 1508970993, 2453635748, 2870763221,
   3624381080, 310598401, 607225278, 1426881987,
   1925078388, 2162078206, 2614888103, 3248222580,
   3835390401, 4022224774, 264347078, 604807628,
   770255983, 1249150122, 1555081692, 1996064986,
   2554220882, 2821834349, 2952996808, 3210313671,
   3336571891, 3584528711, 113926993, 338241895,
   666307205, 773529912, 1294757372, 1396182291,
   1695183700, 1986661051, 2177026350, 2456956037,
   2730485921, 2820302411, 3259730800, 3345764771,
   3516065817, 3600352804, 4094571909, 275423344,
   430227734, 506948616, 659060556, 883997877,
   958139571, 1322822218, 1537002063, 1747873779,
   1955562222, 2024104815, 2227730452, 2361852424,
   2428436474, 2756734187, 3204031479, 3329325298]

/-- SHA-256 initial hash state. -/
def H256init : List Nat :=
  [1779033703, 3144134277, 1013904242, 2773480762,
   1359893119, 2600822924, 528734635, 1541459225]

/-- Big-endian 32-bit words from bytes (groups of four). -/
def wordsOfBytes : List Nat → List Nat
  | a :: b :: c :: d :: rest =>
    (a * 16777216 + b * 65536 + c * 256 + d) :: wordsOfBytes rest
  | _ => []

/-- Big-endian 8-byte rendering of a 64-bit length. -/
def be64 (n : Nat) : List Nat :=
  [(n >>> 56) % 256, (n >>> 48) % 256, (n >>> 40) % 256, (n >>> 32) % 256,
   (n >>> 24) % 256, (n >>> 16) % 256, (n >>> 8) % 256, n % 256]

/-- Big-endian 4-byte rendering of a 32-bit word. -/
def be32 (n : Nat) : List Nat :=
  [(n >>> 24) % 256, (n >>> 16) % 256, (n >>> 8) % 256, n % 256]

/-- SHA-256 padding: a `0x80` byte, zeros to 56 mod 64, then the bit
length as 8 big-endian bytes. -/
def shaPad (msg : List Nat) : List Nat :=
  msg ++ [128] ++ List.replicate ((119 - msg.length % 64) % 64) 0 ++ be64 (msg.length * 8)

/-- Split into 64-byte blocks (fuel = list length bounds the number of
blocks, since each step consumes at least one byte). -/
def chunks64Fuel : Nat → List Nat → List (List Nat)
  | _, [] => []
  | 0, _ => []
  | f + 1, l => l.take 64 :: chunks64Fuel f (l.drop 64)

/-- Split a byte list into 64-byte blocks. -/
def chunks64 (l : List Nat) : List (List Nat) :=
  chunks64Fuel l.length l

/-- Next message-schedule word from the last 16 words. -/
def nextScheduleWord (ws : List Nat) : Nat :=
  (smallSigma1 (ws.getD (ws.length - 2) 0) + ws.getD (ws.length - 7) 0 +
   smallSigma0 (ws.getD (ws.length - 15) 0) + ws.getD (ws.length - 16) 0) % M32

/-- Extend the 16-word schedule by `n` further words. -/
def extendSchedule : List Nat → Nat → List Nat
  | ws, 0 => ws
  | ws, n + 1 => extendSchedule (ws ++ [nextScheduleWord ws]) n

/-- One SHA-256 compression round on the eight-word working state. -/
def roundStep (st : List Nat) (kw : Nat × Nat) : List Nat :=
  match st with
  | [a, b, c, d, e, f, g, h] =>
    ((h + bigSigma1 e + chF e f g + kw.1 + kw.2 + bigSigma0 a + majF a b c) % M32) ::
      a :: b :: c :: ((d + h + bigSigma1 e + chF e f g + kw.1 + kw.2) % M32) :: e :: f :: [g]
  | other => other

/-- Compress one 64-byte block into the hash state. -/
def compressBlock (h : List Nat) (block : List Nat) : List Nat :=
  (h.zip ((K256.zip (extendSchedule (wordsOfBytes block) 48)).foldl roundStep h)).map
    (fun p => (p.1 + p.2) % M32)

/-- Full SHA-256 of a byte list, as 32 bytes. -/
def sha256 (msg : List Nat) : List Nat :=
  ((chunks64 (shaPad msg)).foldl compressBlock H256init).foldr (fun w acc => be32 w ++ acc) []

example : sha256 (asciiBytes "abc") =
    [186, 120, 22, 191, 143, 1, 207, 234,
     65, 65, 64, 222, 93, 174, 34, 35,
     176, 3, 97, 163, 150, 23, 122, 156,
     180, 16, 255, 97, 242, 0, 21, 173] := by
  decide

/-- Bytes of the constant `DOMAIN` (`"PSP.MerkleRoot.v1"`). -/
def DOMAIN_BYTES : List Nat :=
  asciiBytes "PSP.MerkleRoot.v1"

/-- Parent digest of two 32-byte nodes:
`SHA-256(DOMAIN || 0x00 || left || right)`, the preimage built exactly as
in the inner loop of `psp_merkle_root_from_tick_hashes`. -/
def parentDigest (left right : List Nat) : List Nat :=
  sha256 (DOMAIN_BYTES ++ [0] ++ left ++ right)

/-- One pass of the inner `while i < layer.len()` loop: pair nodes
left-to-right; a trailing odd node (`i + 1 >= layer.len()`) is paired
with itself. -/
def buildLevel : List (List Nat) → List (List Nat)
  | [] => []
  | [lone] => [parentDigest lone lone]
  | a :: b :: more => parentDigest a b :: buildLevel more

/-- The outer `while layer.len() > 1` loop.  The fuel only bounds the
number of iterations; starting it at the layer length always suffices
because every iteration at least halves the layer. -/
def buildRootFuel : Nat → List (List Nat) → List Nat
  | _, [] => []
  | _, [x] => x
  | 0, x :: _ :: _ => x
  | f + 1, x :: y :: rest => buildRootFuel f (buildLevel (x :: y :: rest))

/-- Collapse a leaf layer to the root digest (`layer[0]` once the outer
loop exits). -/
def buildRoot (layer : List (List Nat)) : List Nat :=
  buildRootFuel layer.length layer

/-- The leaf-decoding loop
`for t in tick_hashes { layer.push(sha_tag_to_bytes(t)?); }`:
the first non-`ok` decode outcome aborts the whole call. -/
def decodeAll : List (List Nat) → RResult (List (List Nat))
  | [] => .ok []
  | t :: rest =>
    match sha_tag_to_bytes t with
    | .err e => .err e
    | .panic => .panic
    | .ok b =>
      match decodeAll rest with
      | .ok bs => .ok (b :: bs)
      | .err e => .err e
      | .panic => .panic

/-- The sentinel empty root `format!("{}{}", SHA_TAG_PREFIX, "0".repeat(64))`. -/
def sentinel_tag : List Nat :=
  shaTagHead ++ List.replicate 64 48

/-- Rust `psp_merkle_root_from_tick_hashes`: sentinel on empty input,
otherwise decode all leaves, collapse the layers and re-encode the root. -/
def psp_merkle_root_from_tick_hashes (tick_hashes : List (List Nat)) : RResult (List Nat) :=
  if tick_hashes.isEmpty then
    .ok sentinel_tag
  else
    match decodeAll tick_hashes with
    | .err e => .err e
    | .panic => .panic
    | .ok layer => .ok (bytes_to_sha_tag (buildRoot layer))

/-- Opaque structured value (`serde_json::Value`), carried through the
validator without interpretation. -/
inductive JsonValue where
  | raw : String → JsonValue
deriving DecidableEq, Repr

/-- Rust `KernelTokenV1`. -/
structure KernelTokenV1 where
  schema_version : String
  world_id : String
  capsule_digest : String
  merkle_root : String
  tick_count : Nat
deriving DecidableEq, Repr

/-- Rust `InvariantSetV1`. -/
structure InvariantSetV1 where
  schema_version : String
  world_id : String
  capsule_digest : String
  merkle_root : String
  tick_count : Nat
  invariants : JsonValue
  attestation : JsonValue
deriving DecidableEq, Repr

/-- Rust `CapsuleRef`. -/
structure CapsuleRef where
  kind : String
  uri : String
deriving DecidableEq, Repr

/-- Rust `CieV2PlugV1`, the parsed plug bundle. -/
structure CieV2PlugV1 where
  schema_version : String
  world_id : String
  capsule_digest : String
  engine_hash : String
  baseline_merkle_root : String
  kernel_token : KernelTokenV1
  invariant_set : InvariantSetV1
  extractor_version : String
  capsule_ref : Option CapsuleRef
deriving DecidableEq, Repr

/-- Rust `AgentContext`. -/
structure AgentContext where
  world_id : String
  capsule_digest : String
  engine_hash : String
  psp : String
  kernel_token : KernelTokenV1
  invariants : InvariantSetV1
  capsule_ref : Option CapsuleRef
deriving DecidableEq, Repr

/-- Rust `ingest_plug`, modelled from the point after the
`serde_json::from_str` structural parse (deserialization itself is the
external serde framework): the schema pin, the three cross-digest checks
in order with their `anyhow::bail!` messages, then context construction. -/
def ingest_plug (plug : CieV2PlugV1) : Except String AgentContext :=
  if plug.schema_version ≠ "cie_v2_plug.v1" then
    .error "unsupported schema_version"
  else if plug.kernel_token.capsule_digest ≠ plug.capsule_digest then
    .error "kernel_token.capsule_digest mismatch"
  else if plug.kernel_token.merkle_root ≠ plug.baseline_merkle_root then
    .error "kernel_token.merkle_root != baseline_merkle_root"
  else if plug.invariant_set.merkle_root ≠ plug.baseline_merkle_root then
    .error "invariant_set.merkle_root != baseline_merkle_root"
  else
    .ok { world_id := plug.world_id
          capsule_digest := plug.capsule_digest
          engine_hash := plug.engine_hash
          psp := plug.baseline_merkle_root
          kernel_token := plug.kernel_token
          invariants := plug.invariant_set
          capsule_ref := plug.capsule_ref }

/-- Modelled from the spec: a HashTag matching the wire-format regex
`sha256:[0-9a-f]` with 64 lowercase hex characters, total length 71.
Written from the spec's words, for comparison against the decoder the
code actually implements. -/
def isLowerHexByte (b : Nat) : Bool :=
  decide ((48 ≤ b ∧ b ≤ 57) ∨ (97 ≤ b ∧ b ≤ 102))

/-- Modelled from the spec: the exact regex `^sha256:[0-9a-f]{64}$`. -/
def strictTagValid (tag : List Nat) : Bool :=
  shaTagHead.isPrefixOf tag && decide (tag.length = 71) && (tag.drop 7).all isLowerHexByte

/-- Hex digit as accepted by `char::to_digit 16`: `0-9`, `a-f` or `A-F`. -/
def isHexDigitByte (b : Nat) : Bool :=
  decide ((48 ≤ b ∧ b ≤ 57) ∨ (97 ≤ b ∧ b ≤ 102) ∨ (65 ≤ b ∧ b ≤ 70))

/-- A two-byte group that `u8::from_str_radix(_, 16)` accepts: two hex
digits (either case), or a `+` sign followed by one hex digit. -/
def validGroup (x y : Nat) : Bool :=
  (isHexDigitByte x && isHexDigitByte y) || (decide (x = 43) && isHexDigitByte y)

/-- The shape of tag the decoder in the code actually accepts: the
`sha256:` head, total byte length 71, and each of the 32 two-byte groups
accepted by the hex parser. -/
def relaxedTagValid (tag : List Nat) : Bool :=
  shaTagHead.isPrefixOf tag && decide (tag.length = 71) &&
    (List.range 32).all (fun j => validGroup ((tag.drop 7).getD (j * 2) 0) ((tag.drop 7).getD (j * 2 + 1) 0))

/-- The non-sentinel branch of `psp_merkle_root_from_tick_hashes`:
decode every leaf, collapse, re-encode. -/
def decoded_root_result (l : List (List Nat)) : RResult (List Nat) :=
  match decodeAll l with
  | .err e => .err e
  | .panic => .panic
  | .ok layer => .ok (bytes_to_sha_tag (buildRoot layer))

/-- Concrete valid tag `"sha256:" + "11"*32`. -/
def tag11 : List Nat := shaTagHead ++ List.replicate 64 49

/-- Concrete valid tag `"sha256:" + "22"*32`. -/
def tag22 : List Nat := shaTagHead ++ List.replicate 64 50

/-- Concrete valid tag `"sha256:" + "33"*32`. -/
def tag33 : List Nat := shaTagHead ++ List.replicate 64 51

/-- Concrete tag `"sha256:" + "AA"*32` (uppercase hex region). -/
def tagUpper : List Nat := shaTagHead ++ List.replicate 64 65

/-- Concrete length-71 tag whose hex region is 64 `z` characters. -/
def tagZ : List Nat := shaTagHead ++ List.replicate 64 122

/-- Concrete length-71 tag whose hex region is `0`, the two-byte UTF-8
character `é` (0xC3 0xA9) starting at odd byte offset 1, then 61 `0`s. -/
def tagPanic : List Nat := shaTagHead ++ [48, 195, 169] ++ List.replicate 61 48

/-- Decoded bytes of `tag11`. -/
def bytes11 : List Nat := List.replicate 32 17

/-- Decoded bytes of `tag22`. -/
def bytes22 : List Nat := List.replicate 32 34

/-- Decoded bytes of `tag33`. -/
def bytes33 : List Nat := List.replicate 32 51

/-- C1 (counterexample): on the single-leaf input `[tag11]` the function
returns `tag11` itself — the `while layer.len() > 1` loop never runs for
one node — and that differs from the tag of
`SHA-256(DOMAIN || 0x00 || leaf || leaf)` the claim demands. -/
theorem c1_counterexample :
    sha_tag_to_bytes tag11 = .ok bytes11 ∧
    psp_merkle_root_from_tick_hashes [tag11] = .ok tag11 ∧
    tag11 ≠ bytes_to_sha_tag (sha256 (DOMAIN_BYTES ++ [0] ++ bytes11 ++ bytes11)) := by
  refine ⟨by decide, by decide, by decide⟩

/-- C1 (amended): for every tag that decodes successfully, the
single-element call returns the re-encoded leaf bytes themselves (the
leaf tag, lowercased), with no hashing. -/
theorem c1_single_leaf_returns_leaf (tag bs : List Nat)
    (h : sha_tag_to_bytes tag = .ok bs) :
    psp_merkle_root_from_tick_hashes [tag] = .ok (bytes_to_sha_tag bs) := by
  simp [psp_merkle_root_from_tick_hashes, decodeAll, h, buildRoot, buildRootFuel]

/-- C1 (witness): the amended statement at the concrete leaf `tag11`. -/
theorem c1_single_leaf_witness :
    psp_merkle_root_from_tick_hashes [tag11] = .ok (bytes_to_sha_tag bytes11) :=
  c1_single_leaf_returns_leaf tag11 bytes11 (by decide)

/-- C3: the claim of totality is wrong on the code.  On the tag whose
hex region is `0é0…0` (a two-byte character at odd offset) the byte
slice `&hex[0..2]` ends inside `é`, which is a panic, not an `Err`. -/
theorem c3_slice_panics :
    psp_merkle_root_from_tick_hashes [tagPanic] = .panic := by
  decide

/-- C5: any parsed bundle whose `schema_version` is not the exact
literal `"cie_v2_plug.v1"` is rejected with the schema-mismatch error,
whatever every other field holds. -/
theorem c5_schema_pin (p : CieV2PlugV1) (h : p.schema_version ≠ "cie_v2_plug.v1") :
    ingest_plug p = .error "unsupported schema_version" := by
  simp [ingest_plug, h]

/-- A plug bundle with `schema_version = "cie_v2_plug.v2"` and every
other field internally consistent. -/
def plugV2 : CieV2PlugV1 :=
  { schema_version := "cie_v2_plug.v2"
    world_id := "w"
    capsule_digest := "d"
    engine_hash := "e"
    baseline_merkle_root := "r"
    kernel_token := { schema_version := "k", world_id := "w", capsule_digest := "d", merkle_root := "r", tick_count := 1 }
    invariant_set := { schema_version := "i", world_id := "w", capsule_digest := "d", merkle_root := "r", tick_count := 1,
                       invariants := .raw "inv", attestation := .raw "att" }
    extractor_version := "x"
    capsule_ref := some { kind := "k", uri := "u" } }

/-- C5 (witness): `"cie_v2_plug.v2"` is rejected even though all digests agree. -/
theorem c5_schema_pin_witness :
    ingest_plug plugV2 = .error "unsupported schema_version" :=
  c5_schema_pin plugV2 (by decide)

/-- C6: whenever ingestion succeeds, the context copies `world_id`,
`capsule_digest` and `engine_hash`, sets `psp` to the baseline root, and
carries the kernel token, invariant set and optional capsule ref over
unchanged. -/
theorem c6_context_fields (p : CieV2PlugV1) (ctx : AgentContext)
    (h : ingest_plug p = .ok ctx) :
    ctx.world_id = p.world_id ∧ ctx.capsule_digest = p.capsule_digest ∧
    ctx.engine_hash = p.engine_hash ∧ ctx.psp = p.baseline_merkle_root ∧
    ctx.kernel_token = p.kernel_token ∧ ctx.invariants = p.invariant_set ∧
    ctx.capsule_ref = p.capsule_ref := by
  unfold ingest_plug at h
  split_ifs at h
  injection h with h
  subst h
  exact ⟨rfl, rfl, rfl, rfl, rfl, rfl, rfl⟩

/-- A fully consistent plug bundle. -/
def plugGood : CieV2PlugV1 :=
  { schema_version := "cie_v2_plug.v1"
    world_id := "w"
    capsule_digest := "d"
    engine_hash := "e"
    baseline_merkle_root := "r"
    kernel_token := { schema_version := "k", world_id := "w", capsule_digest := "d", merkle_root := "r", tick_count := 1 }
    invariant_set := { schema_version := "i", world_id := "w", capsule_digest := "d", merkle_root := "r", tick_count := 1,
                       invariants := .raw "inv", attestation := .raw "att" }
    extractor_version := "x"
    capsule_ref := some { kind := "k", uri := "u" } }

/-- The context `ingest_plug plugGood` constructs. -/
def ctxGood : AgentContext :=
  { world_id := "w"
    capsule_digest := "d"
    engine_hash := "e"
    psp := "r"
    kernel_token := plugGood.kernel_token
    invariants := plugGood.invariant_set
    capsule_ref := plugGood.capsule_ref }

/-- C6 (witness): the field equations at the concrete consistent bundle. -/
theorem c6_context_fields_witness :
    ctxGood.world_id = plugGood.world_id ∧ ctxGood.capsule_digest = plugGood.capsule_digest ∧
    ctxGood.engine_hash = plugGood.engine_hash ∧ ctxGood.psp = plugGood.baseline_merkle_root ∧
    ctxGood.kernel_token = plugGood.kernel_token ∧ ctxGood.invariants = plugGood.invariant_set ∧
    ctxGood.capsule_ref = plugGood.capsule_ref :=
  c6_context_fields plugGood ctxGood rfl

/-- C8: the empty input returns exactly the all-zero sentinel tag, and
every non-empty input takes the other branch — leaf decoding followed by
tree collapse — never the sentinel early return. -/
theorem c8_empty_sentinel :
    psp_merkle_root_from_tick_hashes [] = .ok sentinel_tag ∧
    ∀ l, l ≠ [] → psp_merkle_root_from_tick_hashes l = decoded_root_result l := by
  refine ⟨rfl, fun l hl => ?_⟩
  cases l with
  | nil => exact absurd rfl hl
  | cons t rest => simp [psp_merkle_root_from_tick_hashes, decoded_root_result]

/-- C8 (witness): the sentinel tag is itself a decodable leaf, and as a
non-empty input it goes through the decode-and-hash branch. -/
theorem c8_empty_sentinel_witness :
    psp_merkle_root_from_tick_hashes [sentinel_tag] = decoded_root_result [sentinel_tag] :=
  c8_empty_sentinel.2 [sentinel_tag] (by decide)

/-- C2 (counterexample): `tagUpper` violates the spec's lowercase regex,
yet the code decodes it and returns a root (the lowercase re-encoding of
its bytes) instead of a FormatError. -/
theorem c2_counterexample :
    strictTagValid tagUpper = false ∧
    psp_merkle_root_from_tick_hashes [tagUpper] = .ok (bytes_to_sha_tag (List.replicate 32 170)) := by
  refine ⟨by decide, by decide⟩

/-- Order sensitivity at concrete leaves: swapping the two distinct
leaves `tag11` and `tag22` changes the root. -/
theorem root_swap_concrete :
    psp_merkle_root_from_tick_hashes [tag11, tag22] ≠
      psp_merkle_root_from_tick_hashes [tag22, tag11] := by
  decide

/-- The conjunction C4 asserts about the cross-digest stage of a bundle
that already passed the schema check: success exactly when the three
equalities hold, the fixed evaluation order with short-circuit on the
first failing pair, and three pairwise-distinct error reasons. -/
def C4CrossChecks (p : CieV2PlugV1) : Prop :=
  ((∃ ctx, ingest_plug p = .ok ctx) ↔
      p.kernel_token.capsule_digest = p.capsule_digest ∧
      p.kernel_token.merkle_root = p.baseline_merkle_root ∧
      p.invariant_set.merkle_root = p.baseline_merkle_root) ∧
  (p.kernel_token.capsule_digest ≠ p.capsule_digest →
      ingest_plug p = .error "kernel_token.capsule_digest mismatch") ∧
  (p.kernel_token.capsule_digest = p.capsule_digest →
      p.kernel_token.merkle_root ≠ p.baseline_merkle_root →
      ingest_plug p = .error "kernel_token.merkle_root != baseline_merkle_root") ∧
  (p.kernel_token.capsule_digest = p.capsule_digest →
      p.kernel_token.merkle_root = p.baseline_merkle_root →
      p.invariant_set.merkle_root ≠ p.baseline_merkle_root →
      ingest_plug p = .error "invariant_set.merkle_root != baseline_merkle_root") ∧
  (("kernel_token.capsule_digest mismatch" : String) ≠ "kernel_token.merkle_root != baseline_merkle_root" ∧
   ("kernel_token.capsule_digest mismatch" : String) ≠ "invariant_set.merkle_root != baseline_merkle_root" ∧
   ("kernel_token.merkle_root != baseline_merkle_root" : String) ≠ "invariant_set.merkle_root != baseline_merkle_root")

/-- C4: a schema-valid bundle is accepted iff all three digest pairs
agree; the checks run in the fixed order capsule-digest, kernel-token
root, invariant-set root, stopping at the first mismatch, each with its
own named reason. -/
theorem c4_cross_digest_checks (p : CieV2PlugV1)
    (hs : p.schema_version = "cie_v2_plug.v1") : C4CrossChecks p := by
  unfold C4CrossChecks
  refine ⟨?_, ?_, ?_, ?_, by decide, by decide, by decide⟩
  · constructor
    · rintro ⟨ctx, h⟩
      unfold ingest_plug at h
      split_ifs at h with h1 h2 h3 h4
      · exact ⟨not_not.mp h2, not_not.mp h3, not_not.mp h4⟩
    · rintro ⟨e1, e2, e3⟩
      refine ⟨⟨p.world_id, p.capsule_digest, p.engine_hash, p.baseline_merkle_root,
        p.kernel_token, p.invariant_set, p.capsule_ref⟩, ?_⟩
      simp [ingest_plug, hs, e1, e2, e3]
  · intro hne
    simp [ingest_plug, hs, hne]
  · intro he1 hne2
    simp [ingest_plug, hs, he1, hne2]
  · intro he1 he2 hne3
    simp [ingest_plug, hs, he1, he2, hne3]

/-- C4 (witness): at the fully consistent concrete bundle. -/
theorem c4_cross_digest_checks_witness : C4CrossChecks plugGood :=
  c4_cross_digest_checks plugGood rfl

/-- Every error produced inside the pair-decoding loop is the
`bad hex in sha tag` message for the decoded tag. -/
theorem decode_pairs_err_shape (hex tag : List Nat) :
    ∀ n i m, decode_pairs hex tag i n = .err m → m = err_bad_hex tag := by
  intro n
  induction n with
  | zero => intro i m h; simp [decode_pairs] at h
  | succ k ih =>
    intro i m h
    simp only [decode_pairs] at h
    split at h
    · exact absurd h (by simp)
    · split at h
      · injection h with h
        exact h.symm
      · split at h
        · exact absurd h (by simp)
        · next heq => injection h with h; subst h; exact ih _ _ heq
        · exact absurd h (by simp)

/-- Every error of `sha_tag_to_bytes` is one of the two tag-naming
messages. -/
theorem sha_tag_to_bytes_err_shape (tag m : List Nat)
    (h : sha_tag_to_bytes tag = .err m) :
    m = err_bad_tag tag ∨ m = err_bad_hex tag := by
  unfold sha_tag_to_bytes at h
  split at h
  · injection h with h
    exact Or.inl h.symm
  · split at h
    · exact absurd h (by simp)
    · exact Or.inr (decode_pairs_err_shape _ _ _ _ _ h)

/-- A decode error message always carries the offending tag (as a
suffix of the message bytes). -/
theorem sha_tag_err_names_tag (tag m : List Nat)
    (h : sha_tag_to_bytes tag = .err m) : tag <:+ m := by
  rcases sha_tag_to_bytes_err_shape tag m h with h1 | h1 <;> subst h1
  · exact List.suffix_append _ _
  · exact List.suffix_append _ _

/-- If every tag before index `j` decodes and the tag at `j` fails with
message `m`, the leaf-decoding loop aborts with exactly that message. -/
theorem decodeAll_first_err :
    ∀ (tags : List (List Nat)) (j : Nat) (m : List Nat),
      j < tags.length →
      (∀ k, k < j → (sha_tag_to_bytes (tags.getD k [])).isOk = true) →
      sha_tag_to_bytes (tags.getD j []) = .err m →
      decodeAll tags = .err m := by
  intro tags
  induction tags with
  | nil => intro j m hj _ _; simp at hj
  | cons t rest ih =>
    intro j m hj hok hfail
    cases j with
    | zero =>
      rw [List.getD_cons_zero] at hfail
      simp [decodeAll, hfail]
    | succ j' =>
      have h0 := hok 0 (Nat.succ_pos j')
      rw [List.getD_cons_zero] at h0
      cases ht : sha_tag_to_bytes t with
      | ok b =>
        have hrest := ih j' m (by simpa using hj)
          (fun k hk => by simpa [List.getD_cons_succ] using hok (k + 1) (by omega))
          (by simpa [List.getD_cons_succ] using hfail)
        simp [decodeAll, ht, hrest]
      | err e => rw [ht] at h0; simp [RResult.isOk] at h0
      | panic => rw [ht] at h0; simp [RResult.isOk] at h0

/-- C7: the first (leftmost) tag whose decode fails aborts the whole
call with that tag's FormatError message — which names the tag — and no
other result is produced. -/
theorem c7_first_failure_aborts (tags : List (List Nat)) (j : Nat) (m : List Nat)
    (hj : j < tags.length)
    (hok : ∀ k, k < j → (sha_tag_to_bytes (tags.getD k [])).isOk = true)
    (hfail : sha_tag_to_bytes (tags.getD j []) = .err m) :
    psp_merkle_root_from_tick_hashes tags = .err m ∧ tags.getD j [] <:+ m := by
  have hd := decodeAll_first_err tags j m hj hok hfail
  refine ⟨?_, sha_tag_err_names_tag _ _ hfail⟩
  cases tags with
  | nil => simp at hj
  | cons t rest => simp [psp_merkle_root_from_tick_hashes, hd]

/-- C7 (witness): decoding `[tag11, tagZ]` fails at index 1 with the
message naming `tagZ`. -/
theorem c7_first_failure_witness :
    psp_merkle_root_from_tick_hashes [tag11, tagZ] = .err (err_bad_hex tagZ) ∧
      tagZ <:+ err_bad_hex tagZ :=
  c7_first_failure_aborts [tag11, tagZ] 1 (err_bad_hex tagZ) (by decide)
    (by intro k hk; have hk0 : k = 0 := Nat.lt_one_iff.mp hk; subst hk0; decide)
    (by decide)

/-- C9: for three decodable leaves, the root is the encoded digest of
`parentDigest (parentDigest A B) (parentDigest C C)` — left-to-right pairing, odd node
duplicated with itself, each parent `SHA-256(DOMAIN || 0x00 || l || r)`. -/
theorem c9_three_leaves (a b c A B C : List Nat)
    (ha : sha_tag_to_bytes a = .ok A)
    (hb : sha_tag_to_bytes b = .ok B)
    (hc : sha_tag_to_bytes c = .ok C) :
    psp_merkle_root_from_tick_hashes [a, b, c] =
      .ok (bytes_to_sha_tag (parentDigest (parentDigest A B) (parentDigest C C))) := by
  simp [psp_merkle_root_from_tick_hashes, decodeAll, ha, hb, hc,
    buildRoot, buildRootFuel, buildLevel]

/-- C9 (witness): the three-leaf statement at the concrete sample tags. -/
theorem c9_three_leaves_witness :
    psp_merkle_root_from_tick_hashes [tag11, tag22, tag33] =
      .ok (bytes_to_sha_tag (parentDigest (parentDigest bytes11 bytes22) (parentDigest bytes33 bytes33))) :=
  c9_three_leaves tag11 tag22 tag33 bytes11 bytes22 bytes33 (by decide) (by decide) (by decide)

/-- The hex parser accepts a byte exactly when it is a hex digit. -/
theorem to_digit16_isSome (b : Nat) : (to_digit16 b).isSome = isHexDigitByte b := by
  unfold to_digit16 isHexDigitByte
  split_ifs with h1 h2 h3 <;> simp_all

/-- Values produced by the hex parser are below 16. -/
theorem to_digit16_le (b v : Nat) (h : to_digit16 b = some v) : v ≤ 15 := by
  unfold to_digit16 at h
  split_ifs at h with h1 h2 h3 <;> injection h with h <;> omega

/-- Parsing `u8::from_str_radix(_, 16)` succeeds on a two-byte group exactly
when the group is two hex digits, or a `+` sign and one hex digit. -/
theorem u8_pair_isSome (x y : Nat) :
    (u8_from_str_radix16 [x, y]).isSome = validGroup x y := by
  unfold u8_from_str_radix16 validGroup
  by_cases hx : x = 43
  · subst hx
    have h43 : isHexDigitByte 43 = false := by decide
    cases hy : to_digit16 y with
    | none =>
      have := to_digit16_isSome y
      rw [hy] at this
      simp [parseDigitsU8, hy, h43, ← this]
    | some v =>
      have := to_digit16_isSome y
      rw [hy] at this
      have hv := to_digit16_le y v hy
      simp [parseDigitsU8, hy, h43, ← this, show v ≤ 255 by omega]
  · simp only [if_neg hx]
    cases hxd : to_digit16 x with
    | none =>
      have := to_digit16_isSome x
      rw [hxd] at this
      simp [parseDigitsU8, hxd, ← this, hx]
    | some vx =>
      have htx := to_digit16_isSome x
      rw [hxd] at htx
      have hvx := to_digit16_le x vx hxd
      cases hyd : to_digit16 y with
      | none =>
        have hty := to_digit16_isSome y
        rw [hyd] at hty
        simp [parseDigitsU8, hxd, hyd, ← htx, ← hty, hx, show vx ≤ 255 by omega]
      | some vy =>
        have hty := to_digit16_isSome y
        rw [hyd] at hty
        have hvy := to_digit16_le y vy hyd
        simp [parseDigitsU8, hxd, hyd, ← htx, ← hty, hx,
          show vx ≤ 255 by omega, show vx * 16 + vy ≤ 255 by omega]

/-- The first byte of an accepted group is ASCII (below 128). -/
theorem validGroup_fst_lt (x y : Nat) (h : validGroup x y = true) : x < 128 := by
  unfold validGroup isHexDigitByte at h
  simp at h
  rcases h with ⟨h1, _⟩ | ⟨h1, _⟩
  · rcases h1 with h | h | h <;> omega
  · omega

/-- The second byte of an accepted group is ASCII (below 128). -/
theorem validGroup_snd_lt (x y : Nat) (h : validGroup x y = true) : y < 128 := by
  unfold validGroup isHexDigitByte at h
  simp at h
  rcases h with ⟨_, h2⟩ | ⟨_, h2⟩ <;> rcases h2 with h | h | h <;> omega

/-- ASCII bytes are not continuation bytes. -/
theorem isContByte_eq_false (x : Nat) (h : x < 128) : isContByte x = false := by
  unfold isContByte
  simp
  omega

/-- An in-range index over a non-continuation byte is a char boundary. -/
theorem isCharBoundary_of_byte (s : List Nat) (i : Nat) (h : i < s.length)
    (hb : isContByte (s.getD i 0) = false) : isCharBoundary s i = true := by
  unfold isCharBoundary
  simp [h]
  exact Or.inr (by rwa [List.getD_eq_getElem s 0 h] at hb)

/-- The length is always a char boundary. -/
theorem isCharBoundary_length (s : List Nat) : isCharBoundary s s.length = true := by
  unfold isCharBoundary
  simp

/-- Index zero is always a char boundary. -/
theorem isCharBoundary_zero (s : List Nat) : isCharBoundary s 0 = true := by
  unfold isCharBoundary
  simp

/-- Two consecutive entries of a list, as a dropped-then-taken slice. -/
theorem drop_take_pair (hex : List Nat) (k : Nat) (h : k + 1 < hex.length) :
    (hex.drop k).take 2 = [hex.getD k 0, hex.getD (k + 1) 0] := by
  rw [List.drop_eq_getElem_cons (show k < hex.length by omega)]
  rw [List.drop_eq_getElem_cons (show k + 1 < hex.length from h)]
  rw [List.getD_eq_getElem hex 0 (show k < hex.length by omega)]
  rw [List.getD_eq_getElem hex 0 (show k + 1 < hex.length from h)]
  rfl

/-- The byte slice `&hex[i*2..i*2+2]` inside the decode loop: defined
when both ends are char boundaries, and then it is the two bytes at
`i*2` and `i*2+1`. -/
theorem strSlice_pair (hex : List Nat) (hlen : hex.length = 64) (i : Nat) (hi : i < 32) :
    strSlice hex (i * 2) (i * 2 + 2) =
      if isCharBoundary hex (i * 2) && isCharBoundary hex (i * 2 + 2) then
        some [hex.getD (i * 2) 0, hex.getD (i * 2 + 1) 0]
      else none := by
  unfold strSlice
  have h1 : decide (i * 2 ≤ i * 2 + 2) = true := decide_eq_true (by omega)
  have h2 : i * 2 + 2 - i * 2 = 2 := by omega
  rw [h1, h2, drop_take_pair hex (i * 2) (by omega)]
  simp only [Bool.true_and]

/-- Success of an `RResult` is existence of an `ok` value. -/
theorem RResult.isOk_iff_exists {α : Type} (r : RResult α) :
    r.isOk = true ↔ ∃ a, r = .ok a := by
  cases r <;> simp [RResult.isOk]

/-- One step of the decode loop succeeds iff the slice is defined, its
two bytes parse, and the rest of the loop succeeds. -/
theorem decode_pairs_succ_isOk (hex tag : List Nat) (i k : Nat) :
    (decode_pairs hex tag i (k + 1)).isOk = true ↔
      ∃ sl, strSlice hex (i * 2) (i * 2 + 2) = some sl ∧
        (u8_from_str_radix16 sl).isSome = true ∧
        (decode_pairs hex tag (i + 1) k).isOk = true := by
  constructor
  · intro h
    rcases hsl : strSlice hex (i * 2) (i * 2 + 2) with _ | sl
    · simp only [decode_pairs, hsl, RResult.isOk] at h
      exact Bool.noConfusion h
    · rcases hu : u8_from_str_radix16 sl with _ | b
      · simp only [decode_pairs, hsl, hu, RResult.isOk] at h
        exact Bool.noConfusion h
      · rcases hr : decode_pairs hex tag (i + 1) k with rest | e | _
        · exact ⟨sl, rfl, by simp [hu], by simp [RResult.isOk]⟩
        · simp only [decode_pairs, hsl, hu, hr, RResult.isOk] at h
          exact Bool.noConfusion h
        · simp only [decode_pairs, hsl, hu, hr, RResult.isOk] at h
          exact Bool.noConfusion h
  · rintro ⟨sl, hsl, hu, hr⟩
    rcases Option.isSome_iff_exists.mp hu with ⟨b, hb⟩
    rcases (RResult.isOk_iff_exists _).mp hr with ⟨rest, hrest⟩
    simp [decode_pairs, hsl, hb, hrest, RResult.isOk]

/-- The pair-decoding loop succeeds from index `i` iff every remaining
two-byte group of the 64-byte hex region is accepted by the parser. -/
theorem decode_pairs_ok_iff (hex tag : List Nat) (hlen : hex.length = 64) :
    ∀ n i, i + n = 32 →
      ((decode_pairs hex tag i n).isOk = true ↔
        ∀ j, i ≤ j → j < 32 →
          validGroup (hex.getD (j * 2) 0) (hex.getD (j * 2 + 1) 0) = true) := by
  intro n
  induction n with
  | zero =>
    intro i hi
    constructor
    · intro _ j hj1 hj2
      omega
    · intro _
      rfl
  | succ k ih =>
    intro i hi
    have hik : i < 32 := by omega
    have hih := ih (i + 1) (by omega)
    rw [decode_pairs_succ_isOk]
    constructor
    · rintro ⟨sl, hsl, hu, hr⟩ j hj1 hj2
      rw [strSlice_pair hex hlen i hik] at hsl
      by_cases hcond : (isCharBoundary hex (i * 2) && isCharBoundary hex (i * 2 + 2)) = true
      · rw [if_pos hcond] at hsl
        injection hsl with hsl
        subst hsl
        by_cases hji : j = i
        · subst hji
          rw [← u8_pair_isSome (hex.getD (j * 2) 0) (hex.getD (j * 2 + 1) 0)]
          exact hu
        · exact hih.mp hr j (by omega) hj2
      · rw [if_neg hcond] at hsl
        exact absurd hsl (by simp)
    · intro hall
      have hx := hall i (Nat.le_refl i) hik
      have hbnd1 : isCharBoundary hex (i * 2) = true := by
        by_cases hi0 : i = 0
        · subst hi0
          exact isCharBoundary_zero hex
        · exact isCharBoundary_of_byte hex (i * 2) (by omega)
            (isContByte_eq_false _ (validGroup_fst_lt _ _ hx))
      have hbnd2 : isCharBoundary hex (i * 2 + 2) = true := by
        by_cases hi31 : i = 31
        · subst hi31
          have h64 : 31 * 2 + 2 = hex.length := by omega
          rw [h64]
          exact isCharBoundary_length hex
        · have hnext := hall (i + 1) (by omega) (by omega)
          have hlt := validGroup_fst_lt _ _ hnext
          have heq : (i + 1) * 2 = i * 2 + 2 := by ring
          rw [heq] at hlt
          exact isCharBoundary_of_byte hex (i * 2 + 2) (by omega)
            (isContByte_eq_false _ hlt)
      refine ⟨[hex.getD (i * 2) 0, hex.getD (i * 2 + 1) 0], ?_, ?_, ?_⟩
      · rw [strSlice_pair hex hlen i hik, if_pos (by rw [hbnd1, hbnd2]; rfl)]
      · rw [u8_pair_isSome]
        exact hx
      · exact hih.mpr (fun j hj1 hj2 => hall j (by omega) hj2)

/-- The head-and-length guard of `sha_tag_to_bytes` passes exactly for
tags with the `sha256:` byte head and total byte length 71. -/
theorem sha_guard_false_iff (tag : List Nat) :
    ((! shaTagHead.isPrefixOf tag || decide (tag.length ≠ shaTagHead.length + 64)) = false) ↔
      (shaTagHead.isPrefixOf tag = true ∧ tag.length = 71) := by
  cases hpf : shaTagHead.isPrefixOf tag <;>
    simp [show shaTagHead.length = 7 from rfl]

/-- The first byte of the hex region, seen from the whole tag. -/
theorem drop7_getD_zero (tag : List Nat) (h7 : 7 < tag.length) :
    (tag.drop 7).getD 0 0 = tag.getD 7 0 := by
  rw [List.drop_eq_getElem_cons h7, List.getD_cons_zero,
    List.getD_eq_getElem tag 0 h7]

/-- Decoding via `sha_tag_to_bytes` succeeds exactly on tags of the relaxed shape the
hex parser accepts (head, byte length 71, and every two-byte group two
hex digits of either case or a `+` sign and a hex digit). -/
theorem sha_tag_ok_iff (tag : List Nat) :
    (sha_tag_to_bytes tag).isOk = true ↔ relaxedTagValid tag = true := by
  by_cases hg : (! shaTagHead.isPrefixOf tag || decide (tag.length ≠ shaTagHead.length + 64)) = false
  case neg =>
    have hg' : (! shaTagHead.isPrefixOf tag || decide (tag.length ≠ shaTagHead.length + 64)) = true := by
      revert hg
      cases (! shaTagHead.isPrefixOf tag || decide (tag.length ≠ shaTagHead.length + 64)) <;> simp
    have hnot := hg
    rw [sha_guard_false_iff] at hnot
    unfold sha_tag_to_bytes
    rw [hg']
    simp only [if_true, RResult.isOk]
    constructor
    · intro h
      exact absurd h (by simp)
    · intro h
      simp only [relaxedTagValid, Bool.and_eq_true] at h
      exact absurd ⟨h.1.1, of_decide_eq_true h.1.2⟩ hnot
  case pos =>
    obtain ⟨hpf, hlen71⟩ := (sha_guard_false_iff tag).mp hg
    have h7lt : 7 < tag.length := by omega
    have hexlen : (tag.drop 7).length = 64 := by
      rw [List.length_drop, hlen71]
    unfold sha_tag_to_bytes
    rw [hg]
    simp only [Bool.false_eq_true, if_false]
    have hb_end : isCharBoundary tag tag.length = true := isCharBoundary_length tag
    by_cases hcont : isContByte (tag.getD 7 0) = true
    · have hcontE : isContByte (tag.getD 7 0) = true := hcont
      rw [List.getD_eq_getElem tag 0 h7lt] at hcontE
      have hb7 : isCharBoundary tag 7 = false := by
        unfold isCharBoundary
        simp [hlen71, hcontE]
      have hslice : strSlice tag shaTagHead.length tag.length = none := by
        unfold strSlice
        rw [show shaTagHead.length = 7 from rfl, hb7]
        simp
      rw [hslice]
      simp only [RResult.isOk]
      constructor
      · intro h
        exact absurd h (by simp)
      · intro h
        simp only [relaxedTagValid, Bool.and_eq_true, List.all_eq_true, List.mem_range] at h
        obtain ⟨-, hall⟩ := h
        have h0 : validGroup ((tag.drop 7).getD (0 * 2) 0) ((tag.drop 7).getD (0 * 2 + 1) 0) = true :=
          hall 0 (by omega)
        have hlt := validGroup_fst_lt _ _ h0
        rw [show (0 * 2 : Nat) = 0 from rfl, drop7_getD_zero tag h7lt] at hlt
        have hge : 128 ≤ tag.getD 7 0 := by
          have hc := hcont
          unfold isContByte at hc
          rw [Bool.and_eq_true, decide_eq_true_eq, decide_eq_true_eq] at hc
          exact hc.1
        omega
    · have hcont' : isContByte (tag.getD 7 0) = false := by
        revert hcont
        cases isContByte (tag.getD 7 0) <;> simp
      have hb7 : isCharBoundary tag 7 = true :=
        isCharBoundary_of_byte tag 7 h7lt hcont'
      have hslice : strSlice tag shaTagHead.length tag.length = some (tag.drop 7) := by
        unfold strSlice
        rw [show shaTagHead.length = 7 from rfl, hb7, hb_end,
          decide_eq_true (show 7 ≤ tag.length by omega)]
        simp only [Bool.and_true, Bool.true_and, if_true]
        rw [List.take_of_length_le (by rw [List.length_drop])]
      rw [hslice]
      rw [decode_pairs_ok_iff (tag.drop 7) tag hexlen 32 0 rfl]
      unfold relaxedTagValid
      rw [hpf, decide_eq_true hlen71]
      simp only [Bool.true_and, List.all_eq_true, List.mem_range]
      constructor
      · intro h j hj
        exact h j (Nat.zero_le j) hj
      · intro h j _ hj
        exact h j hj

/-- A single-leaf call succeeds exactly when the leaf decodes. -/
theorem psp_single_isOk (tag : List Nat) :
    (psp_merkle_root_from_tick_hashes [tag]).isOk = (sha_tag_to_bytes tag).isOk := by
  cases h : sha_tag_to_bytes tag <;>
    simp [psp_merkle_root_from_tick_hashes, decodeAll, h, RResult.isOk]

/-- C2 (amended): a tag decodes — and a single-leaf root is produced —
exactly for tags of the relaxed shape `sha256:` head, byte length 71,
and every two-byte group two hex digits of either case or `+` plus one
hex digit; not only for the spec's strict lowercase regex. -/
theorem c2_decode_iff_relaxed (tag : List Nat) :
    ((sha_tag_to_bytes tag).isOk = true ↔ relaxedTagValid tag = true) ∧
    ((psp_merkle_root_from_tick_hashes [tag]).isOk = true ↔ relaxedTagValid tag = true) := by
  refine ⟨sha_tag_ok_iff tag, ?_⟩
  rw [psp_single_isOk]
  exact sha_tag_ok_iff tag
